import Mathlib

/-!
# Verification of `video_hash_filesystem_cache`

A shallow embedding of the crate's core slice:

* `FileProjection` (src/file_projection.rs): the pure path predicate
  (`contains`, `has_ignore_ext`), the constructor overlap check, and the
  two one-shot projection methods over a modelled filesystem tree.
* `VideoHashFilesystemCache` (src/video_hash_filesystem_cache.rs): `fetch`,
  `fetch_update`, `all_cached_paths`, `update_using_fs`, layered over a
  Store modelled from the spec (the `generic_filesystem_cache` crate is an
  external collaborator whose code is not in this repository).

Paths are modelled as lists of components, matching Rust's
`Path::starts_with`, which compares whole components.
-/

set_option autoImplicit false

abbrev FsPath := List String

/-- Rust `Path::starts_with`: `p` starts with `pre` componentwise. -/
def pathStartsWith (p pre : FsPath) : Bool :=
  pre.isPrefixOf p

theorem pathStartsWith_iff (p pre : FsPath) :
    pathStartsWith p pre = true ↔ ∃ r, pre ++ r = p := by
  induction pre generalizing p with
  | nil =>
    simp [pathStartsWith, List.isPrefixOf]
  | cons a pre ih =>
    cases p with
    | nil =>
      simp [pathStartsWith, List.isPrefixOf]
    | cons b p =>
      simp only [pathStartsWith, List.isPrefixOf, Bool.and_eq_true, beq_iff_eq] at *
      constructor
      · rintro ⟨rfl, h⟩
        obtain ⟨r, rfl⟩ := (ih p).mp h
        exact ⟨r, rfl⟩
      · rintro ⟨r, hr⟩
        injection hr with h1 h2
        exact ⟨h1, (ih p).mpr ⟨r, h2⟩⟩

/-- ASCII lowering of a single character (Rust `eq_ignore_ascii_case`). -/
def asciiLower (c : Char) : Char :=
  if 'A' ≤ c ∧ c ≤ 'Z' then Char.ofNat (c.toNat + 32) else c

/-- Rust `OsStr::eq_ignore_ascii_case`. -/
def eqIgnoreAsciiCase (a b : String) : Bool :=
  a.data.map asciiLower == b.data.map asciiLower

/-- The characters after the last `.` of the list, if any dot occurs. -/
def afterLastDot : List Char → Option (List Char)
  | [] => none
  | c :: rest =>
    match afterLastDot rest with
    | some e => some e
    | none => if c = '.' then some rest else none

/-- Rust `Path::extension().unwrap_or_default()` applied to one file-name
component: the part after the last dot, except that a dot in leading
position alone yields no extension; a missing extension is `""`. -/
def extensionOfName (name : String) : String :=
  match name.data with
  | [] => ""
  | _ :: rest =>
    match afterLastDot rest with
    | some e => String.mk e
    | none => ""

/-- Rust `Path::extension` looks at the final component of the path. -/
def pathExtension (p : FsPath) : String :=
  match p.getLast? with
  | none => ""
  | some name => extensionOfName name

/-- `FileProjectionState` from src/file_projection.rs. -/
inductive FileProjectionState where
  | Unprojected
  | ProjectedUsingFs
  | ProjectedUsingList
deriving DecidableEq, Repr

/-- `FileProjectionError` from src/file_projection.rs (the `Enumeration`
variant carries the offending path in this model). -/
inductive FileProjectionError where
  | PathNotFound (p : FsPath)
  | ExclPathNotFound (p : FsPath)
  | Enumeration (p : FsPath)
  | SrcPathExcluded (src_path : FsPath) (excl_path : FsPath)
deriving DecidableEq, Repr

/-- `FileProjection` from src/file_projection.rs.  The `projected_files`
`HashSet` is modelled as a deduplicated list. -/
structure FileProjection where
  src_paths : List FsPath
  excl_paths : List FsPath
  projected_files : List FsPath
  state : FileProjectionState
  excl_exts : List String
deriving DecidableEq, Repr

/-- `FileProjection::new`: rejects with `SrcPathExcluded` when some
`src_path` starts with some `excl_path`, scanning excl-major as the source
does. -/
def FileProjection.new (src_paths excl_paths : List FsPath)
    (excl_exts : List String) : Except FileProjectionError FileProjection :=
  match excl_paths.findSome? (fun excl_path =>
      src_paths.findSome? (fun src_path =>
        if pathStartsWith src_path excl_path then
          some (src_path, excl_path)
        else none)) with
  | some (s, e) => .error (.SrcPathExcluded s e)
  | none =>
    .ok { src_paths := src_paths, excl_paths := excl_paths,
          projected_files := [], state := .Unprojected,
          excl_exts := excl_exts }

/-- `FileProjection::raw_includes`. -/
def FileProjection.raw_includes (fp : FileProjection) (p : FsPath) : Bool :=
  fp.src_paths.any (fun src_path => pathStartsWith p src_path)

/-- `FileProjection::raw_excludes`. -/
def FileProjection.raw_excludes (fp : FileProjection) (p : FsPath) : Bool :=
  fp.excl_paths.any (fun excl_path => pathStartsWith p excl_path)

/-- `FileProjection::contains`. -/
def FileProjection.contains (fp : FileProjection) (p : FsPath) : Bool :=
  fp.raw_includes p && !fp.raw_excludes p

/-- `FileProjection::has_ignore_ext`. -/
def FileProjection.has_ignore_ext (fp : FileProjection) (p : FsPath) : Bool :=
  fp.excl_exts.any (fun ext => eqIgnoreAsciiCase (pathExtension p) ext)

/-! ## Filesystem model for `project_using_fs`

The walk performed by `walkdir` with `filter_entry` is modelled over a
finite directory tree.  An `unreadable` directory exists on disk (so
`Path::exists` is true) but enumerating it yields one walk error. -/

mutual
inductive Fs where
  | file : Fs
  | unreadable : Fs
  | dir : FsList → Fs
deriving DecidableEq, Repr
inductive FsList where
  | nil : FsList
  | cons : String → Fs → FsList → FsList
deriving DecidableEq, Repr
end

/-- Look up a child by name in a directory listing. -/
def FsList.findName : FsList → String → Option Fs
  | .nil, _ => none
  | .cons name child rest, n =>
    if name = n then some child else FsList.findName rest n

/-- Resolve a path from the given node. -/
def Fs.lookup : Fs → FsPath → Option Fs
  | e, [] => some e
  | .file, _ :: _ => none
  | .unreadable, _ :: _ => none
  | .dir children, n :: rest =>
    match children.findName n with
    | some c => c.lookup rest
    | none => none

/-- Rust `Path::exists`. -/
def Fs.pathExists (fs : Fs) (p : FsPath) : Bool :=
  (fs.lookup p).isSome

mutual
/-- `WalkDir::new(..).filter_entry(pred)` from `project_using_fs`, started
at the node `e` whose path is `p`: the first component of the result is
the retained regular files, the second the per-entry walk errors
(represented by the unreadable directory's path).  The predicate is
checked on every yielded entry, including the root, and a rejected
directory is pruned with its whole subtree. -/
def Fs.walk (pred : FsPath → Bool) (p : FsPath) : Fs → List FsPath × List FsPath
  | .file => if pred p then ([p], []) else ([], [])
  | .unreadable => if pred p then ([], [p]) else ([], [])
  | .dir children => if pred p then FsList.walk pred p children else ([], [])
/-- Walk of the children of a directory whose path is `p`. -/
def FsList.walk (pred : FsPath → Bool) (p : FsPath) : FsList → List FsPath × List FsPath
  | .nil => ([], [])
  | .cons name child rest =>
    let r1 := Fs.walk pred (p ++ [name]) child
    let r2 := FsList.walk pred p rest
    (r1.1 ++ r2.1, r1.2 ++ r2.2)
end

/-- `FileProjection::project_using_fs` over the modelled filesystem.
`none` models the panic on calling after `project_using_list`; `Except`
carries the fatal `PathNotFound`/`ExclPathNotFound` outcomes; the `ok`
payload is the non-fatal walk-error list plus the updated projection. -/
def FileProjection.project_using_fs (fs : Fs) (fp : FileProjection) :
    Option (Except FileProjectionError (List FsPath × FileProjection)) :=
  match fp.state with
  | .ProjectedUsingList => none
  | .ProjectedUsingFs => some (.ok ([], fp))
  | .Unprojected =>
    match fp.src_paths.find? (fun p => !(fs.pathExists p)) with
    | some p => some (.error (.PathNotFound p))
    | none =>
      match fp.excl_paths.find? (fun p => !(fs.pathExists p)) with
      | some p => some (.error (.ExclPathNotFound p))
      | none =>
        let pred := fun p => fp.contains p && !(fp.has_ignore_ext p)
        let results := fp.src_paths.map (fun src_path =>
          match fs.lookup src_path with
          | some e => Fs.walk pred src_path e
          | none => ([], []))
        let enumerated_paths := (results.map Prod.fst).flatten.dedup
        let loading_errs := (results.map Prod.snd).flatten
        some (.ok (loading_errs,
          { fp with projected_files := enumerated_paths,
                    state := .ProjectedUsingFs }))

/-- `FileProjection::project_using_list`.  `none` models the panic on
calling after `project_using_fs`. -/
def FileProjection.project_using_list (fp : FileProjection)
    (list : List FsPath) : Option FileProjection :=
  match fp.state with
  | .ProjectedUsingFs => none
  | .ProjectedUsingList => some fp
  | .Unprojected =>
    some { fp with
           projected_files := (list.filter (fun p => fp.contains p)).dedup,
           state := .ProjectedUsingList }

/-- `FileProjection::projected_files`.  `none` models the panic when no
projection has occurred. -/
def FileProjection.projectedFilesChecked (fp : FileProjection) :
    Option (List FsPath) :=
  match fp.state with
  | .Unprojected => none
  | .ProjectedUsingFs => some fp.projected_files
  | .ProjectedUsingList => some fp.projected_files

/-! ## Cache data model

`VideoHash`/`VideoStats` come from `vid_dup_finder_lib` and are opaque
payloads from this crate's point of view; they are modelled as abstract
identifiers. -/

/-- Modelled from the spec: the artifact is an opaque payload produced by
the Producer; only its identity matters here. -/
structure VideoHash where
  data : Nat
deriving DecidableEq, Repr

/-- Modelled from the spec: opaque statistics payload stored next to the
hash. -/
structure VideoStats where
  data : Nat
deriving DecidableEq, Repr

/-- `CachedVideoData` from src/cache_entry.rs. -/
structure CachedVideoData where
  hash : VideoHash
  stats : VideoStats
deriving DecidableEq, Repr

/-- `HashCreationErrorKind` from `vid_dup_finder_lib` (the closed set of
classified Producer failures named in src/generic_cache_if.rs). -/
inductive HashCreationErrorKind where
  | DetermineVideo (src_path : FsPath) (error : String)
  | VideoLength (src_path : FsPath)
  | VideoProcessing (src_path : FsPath) (error : String)
deriving DecidableEq, Repr

/-- `CacheEntry` from src/cache_entry.rs: a persisted success or a
classified (negative-cached) failure. -/
structure CacheEntry where
  val : Except HashCreationErrorKind CachedVideoData

/-- `FsCacheErrorKind` from `generic_filesystem_cache`.  Modelled from the
spec: structural Store failures (I/O) and the absent-entry failure of the
read-only `fetch`. -/
inductive FsCacheErrorKind where
  | ItemNotInCache (p : FsPath)
  | IoError (msg : String)
deriving DecidableEq, Repr

/-- `VdfCacheError` from src/errors.rs (the `CacheErrror` spelling is the
source's). -/
inductive VdfCacheError where
  | CreateHashError (e : HashCreationErrorKind)
  | CacheErrror (e : FsCacheErrorKind)
deriving DecidableEq, Repr

instance : DecidableEq CacheEntry := fun a b => by
  cases a with
  | mk av =>
    cases b with
    | mk bv =>
      cases av with
      | ok x =>
        cases bv with
        | ok y => exact decidable_of_iff (x = y) (by simp)
        | error y => exact .isFalse (by simp)
      | error x =>
        cases bv with
        | ok y => exact .isFalse (by simp)
        | error y => exact decidable_of_iff (x = y) (by simp)

/-- Modelled from the spec: the Store's key space — each entry carries the
last-known modification time alongside the persisted `CacheEntry`
(spec section 3, "Store entry"). -/
structure Store where
  entries : List (FsPath × Nat × CacheEntry)
deriving DecidableEq

/-- Modelled from the spec: `get(key) -> Option<(ModTime, CacheRecord)>`. -/
def Store.get (s : Store) (p : FsPath) : Option (Nat × CacheEntry) :=
  (s.entries.find? (fun e => e.1 = p)).map (fun e => e.2)

/-- Modelled from the spec: `keys() -> list of Path`. -/
def Store.keys (s : Store) : List FsPath :=
  s.entries.map (fun e => e.1)

/-- Modelled from the spec: `remove(key)`. -/
def Store.remove (s : Store) (p : FsPath) : Store :=
  ⟨s.entries.filter (fun e => !(e.1 = p : Bool))⟩

/-- Modelled from the spec: `put(key, ModTime, CacheRecord)` replaces any
previous record under the key. -/
def Store.put (s : Store) (p : FsPath) (mt : Nat) (c : CacheEntry) : Store :=
  ⟨(p, mt, c) :: (s.remove p).entries⟩

/-- The disk state seen by the cache: the video files with their current
modification times, the Producer (`VideoHash::from_path_with_stats` behind
`GenericCacheIf::load`), and an injection point for structural Store I/O
failures when a new record has to be stored (spec section 4.2 step 4). -/
structure VideoFs where
  files : List (FsPath × Nat)
  produce : FsPath → Except HashCreationErrorKind CachedVideoData
  storeErr : FsPath → Option FsCacheErrorKind

/-- Current modification time of a path, `none` when the file does not
exist on disk. -/
def VideoFs.mtime (fs : VideoFs) (p : FsPath) : Option Nat :=
  (fs.files.find? (fun e => e.1 = p)).map (fun e => e.2)

/-- Modelled from the spec: `ProcessingFsCache::fetch_update` of the
external `generic_filesystem_cache` crate (spec section 4.2):
1. path absent on disk → remove any entry, `Ok(None)`;
2. entry present with matching mod time → cached record, no Producer call;
3. otherwise → run the Producer, store the outcome with the current mod
   time, return it (a structural Store failure while storing surfaces as
   `Err`, step 4). -/
def ProcessingFsCache.fetch_update (fs : VideoFs) (s : Store) (p : FsPath) :
    Except FsCacheErrorKind (Store × Option CacheEntry) :=
  match fs.mtime p with
  | none => .ok (s.remove p, none)
  | some mt =>
    match s.get p with
    | some (mt0, entry) =>
      if mt0 = mt then .ok (s, some entry)
      else
        match fs.storeErr p with
        | some e => .error e
        | none =>
          let entry := CacheEntry.mk (fs.produce p)
          .ok (s.put p mt entry, some entry)
    | none =>
      match fs.storeErr p with
      | some e => .error e
      | none =>
        let entry := CacheEntry.mk (fs.produce p)
        .ok (s.put p mt entry, some entry)

/-- Modelled from the spec: `ProcessingFsCache::fetch` — read-only, fails
when no entry exists (spec section 4.2, `fetch`). -/
def ProcessingFsCache.fetch (s : Store) (p : FsPath) :
    Except FsCacheErrorKind CacheEntry :=
  match s.get p with
  | some (_, entry) => .ok entry
  | none => .error (.ItemNotInCache p)

/-! ## `VideoHashFilesystemCache` (src/video_hash_filesystem_cache.rs) -/

/-- `VideoHashFilesystemCache::fetch_entry`. -/
def VideoHashFilesystemCache.fetch_entry (s : Store) (p : FsPath) :
    Except VdfCacheError CacheEntry :=
  match ProcessingFsCache.fetch s p with
  | .ok entry => .ok entry
  | .error e => .error (.CacheErrror e)

/-- `VideoHashFilesystemCache::fetch`. -/
def VideoHashFilesystemCache.fetch (s : Store) (p : FsPath) :
    Except VdfCacheError VideoHash :=
  match VideoHashFilesystemCache.fetch_entry s p with
  | .ok entry =>
    match entry.val with
    | .ok d => .ok d.hash
    | .error e => .error (.CreateHashError e)
  | .error e => .error e

/-- Boolean test for the `Ok` arm of an `Except`. -/
def exceptIsOk {ε α : Type} : Except ε α → Bool
  | .ok _ => true
  | .error _ => false

/-- `VideoHashFilesystemCache::all_cached_paths`: the Store keys for which
`fetch` succeeds. -/
def VideoHashFilesystemCache.all_cached_paths (s : Store) : List FsPath :=
  (Store.keys s).filter (fun p => exceptIsOk (VideoHashFilesystemCache.fetch s p))

/-- `VideoHashFilesystemCache::fetch_update`: wraps the Store-level
staleness algorithm, unwrapping the entry into the hash or the classified
failure. -/
def VideoHashFilesystemCache.fetch_update (fs : VideoFs) (s : Store) (p : FsPath) :
    Except VdfCacheError (Store × Option (Except HashCreationErrorKind VideoHash)) :=
  match ProcessingFsCache.fetch_update fs s p with
  | .ok (s1, none) => .ok (s1, none)
  | .ok (s1, some entry) =>
    match entry.val with
    | .ok d => .ok (s1, some (.ok d.hash))
    | .error hash_creation_err => .ok (s1, some (.error hash_creation_err))
  | .error cache_error => .error (.CacheErrror cache_error)

/-- `all_update_paths` of `update_using_fs`: previously cached paths still
in scope, chained with the projected files, collected into a set. -/
def VideoHashFilesystemCache.all_update_paths (s : Store) (fp : FileProjection) :
    List FsPath :=
  ((VideoHashFilesystemCache.all_cached_paths s).filter
      (fun p => fp.contains p) ++ fp.projected_files).dedup

/-- One step of the bulk-update loop: run `fetch_update` on one path,
appending a classified failure (as `CreateHashError`) or a Store-level
error to the non-fatal list and carrying the updated store. -/
def VideoHashFilesystemCache.update_step (fs : VideoFs)
    (acc : Store × List VdfCacheError) (p : FsPath) :
    Store × List VdfCacheError :=
  match VideoHashFilesystemCache.fetch_update fs acc.1 p with
  | .ok (s1, some (.error e)) => (s1, acc.2 ++ [VdfCacheError.CreateHashError e])
  | .ok (s1, _) => (s1, acc.2)
  | .error e => (acc.1, acc.2 ++ [e])

/-- `VideoHashFilesystemCache::update_using_fs`.  `none` models the panic
of `projected_files()` on an unprojected projection; otherwise the loop
runs over every update path and the whole operation ends in `Ok` carrying
the accumulated non-fatal errors. -/
def VideoHashFilesystemCache.update_using_fs (fs : VideoFs) (s : Store)
    (fp : FileProjection) :
    Option (Except VdfCacheError (Store × List VdfCacheError)) :=
  match fp.projectedFilesChecked with
  | none => none
  | some _ =>
    some (.ok ((VideoHashFilesystemCache.all_update_paths s fp).foldl
      (VideoHashFilesystemCache.update_step fs) (s, [])))

/-- The non-fatal error contributed by one path of the bulk update: the
classified Producer failure (wrapped as `CreateHashError`) when
`fetch_update` yields `Ok(Some(Err(..)))`, the Store-level error when it
yields `Err(..)`, nothing otherwise (the `filter_map` of
`update_using_fs`). -/
def VideoHashFilesystemCache.path_outcome (fs : VideoFs) (s : Store) (p : FsPath) :
    Option VdfCacheError :=
  match VideoHashFilesystemCache.fetch_update fs s p with
  | .ok (_, some (.error e)) => some (.CreateHashError e)
  | .error e => some e
  | .ok (_, none) => none
  | .ok (_, some (.ok _)) => none

/-- The same per-path error computed from the path's store entry alone:
the decision of `fetch_update` reads only the entry under its own key. -/
def fu_outcome_spec (fs : VideoFs) (ent : Option (Nat × CacheEntry))
    (p : FsPath) : Option VdfCacheError :=
  match fs.mtime p with
  | none => none
  | some mt =>
    match ent with
    | some (mt0, entry) =>
      if mt0 = mt then
        match entry.val with
        | .error e => some (.CreateHashError e)
        | .ok _ => none
      else
        match fs.storeErr p with
        | some e => some (.CacheErrror e)
        | none =>
          match fs.produce p with
          | .error e => some (.CreateHashError e)
          | .ok _ => none
    | none =>
      match fs.storeErr p with
      | some e => some (.CacheErrror e)
      | none =>
        match fs.produce p with
        | .error e => some (.CreateHashError e)
        | .ok _ => none

/-! ## Concrete fixtures used by witnesses and counterexamples -/

/-- A Producer that succeeds on every path. -/
def wProduceOk : FsPath → Except HashCreationErrorKind CachedVideoData :=
  fun _ => .ok ⟨⟨1⟩, ⟨1⟩⟩

/-- A Store with no structural I/O failures. -/
def wNoStoreErr : FsPath → Option FsCacheErrorKind := fun _ => none

/-- A small disk state with a single video file. -/
def wVideoFs : VideoFs :=
  { files := [(["v", "a.mp4"], 10)], produce := wProduceOk,
    storeErr := wNoStoreErr }

/-- A store holding one success and one negative-cached failure. -/
def wStore : Store :=
  ⟨[(["v", "a.mp4"], 10, ⟨.ok ⟨⟨1⟩, ⟨1⟩⟩⟩),
    (["v", "bad.mp4"], 3, ⟨.error (.VideoLength ["v", "bad.mp4"])⟩)]⟩

/-- A projection already projected from the filesystem. -/
def wProj : FileProjection :=
  { src_paths := [["v"]], excl_paths := [],
    projected_files := [["v", "a.mp4"]], state := .ProjectedUsingFs,
    excl_exts := [] }

/-- An unprojected projection excluding the `txt` extension. -/
def wUnproj : FileProjection :=
  { src_paths := [["v"]], excl_paths := [], projected_files := [],
    state := .Unprojected, excl_exts := ["txt"] }

/-- A directory tree matching `wProj`. -/
def wFsTree : Fs :=
  .dir (.cons "v" (.dir (.cons "a.mp4" .file .nil)) .nil)

/-- Source paths for the C5 witness: nested under the exclusion. -/
def wSrcPaths : List FsPath := [["x", "y"]]

/-- Exclusion paths for the C5 witness. -/
def wExclPaths : List FsPath := [["x"]]

/-- A Producer failing on one specific path. -/
def wProduce8 : FsPath → Except HashCreationErrorKind CachedVideoData :=
  fun p => if p = ["v", "bad.mp4"] then .error (.VideoLength p)
           else .ok ⟨⟨2⟩, ⟨2⟩⟩

/-- Structural store failure injected on one specific path. -/
def wStoreErr8 : FsPath → Option FsCacheErrorKind :=
  fun p => if p = ["v", "io.mp4"] then some (.IoError "disk") else none

/-- Disk state for the C8 witness: a classified Producer failure and a
store-level failure alongside a healthy file. -/
def wVideoFs8 : VideoFs :=
  { files := [(["v", "bad.mp4"], 1), (["v", "io.mp4"], 2), (["v", "ok.mp4"], 3)],
    produce := wProduce8, storeErr := wStoreErr8 }

/-- Projection for the C8 witness, covering the three files. -/
def wProj8 : FileProjection :=
  { src_paths := [["v"]], excl_paths := [],
    projected_files := [["v", "bad.mp4"], ["v", "io.mp4"], ["v", "ok.mp4"]],
    state := .ProjectedUsingFs, excl_exts := [] }

/-- C10 counterexample tree: `a/b.txt/c/f` with `b.txt` a directory whose
name carries the excluded extension. -/
def nestedSrcFs : Fs :=
  .dir (.cons "a"
    (.dir (.cons "b.txt"
      (.dir (.cons "c"
        (.dir (.cons "f" .file .nil)) .nil)) .nil)) .nil)

/-- C10 counterexample projection: one source path above `b.txt` and one
nested beneath it, with extension `txt` excluded. -/
def nestedSrcProj : FileProjection :=
  { src_paths := [["a"], ["a", "b.txt", "c"]], excl_paths := [],
    projected_files := [], state := .Unprojected, excl_exts := ["txt"] }

/-- The projection produced from `nestedSrcProj` by `project_using_fs`. -/
def nestedSrcProjAfter : FileProjection :=
  { src_paths := [["a"], ["a", "b.txt", "c"]], excl_paths := [],
    projected_files := [["a", "b.txt", "c", "f"]],
    state := .ProjectedUsingFs, excl_exts := ["txt"] }

/-- C10 witness tree: `a` holds a prunable `bad.txt` directory (containing
`x.mp4`) and a regular `ok.mp4` file. -/
def wFs10 : Fs :=
  .dir (.cons "a"
    (.dir (.cons "bad.txt" (.dir (.cons "x.mp4" .file .nil))
      (.cons "ok.mp4" .file .nil))) .nil)

/-- C10 witness projection over `wFs10`. -/
def wFp10 : FileProjection :=
  { src_paths := [["a"]], excl_paths := [], projected_files := [],
    state := .Unprojected, excl_exts := ["txt"] }

/-- The projection produced from `wFp10` by `project_using_fs`. -/
def wFp10After : FileProjection :=
  { src_paths := [["a"]], excl_paths := [],
    projected_files := [["a", "ok.mp4"]],
    state := .ProjectedUsingFs, excl_exts := ["txt"] }

/-! ## Helper lemmas -/

theorem Store.mem_keys_of_get_eq_some (s : Store) (p : FsPath)
    (x : Nat × CacheEntry) (h : Store.get s p = some x) : p ∈ Store.keys s := by
  unfold Store.get at h
  cases hf : s.entries.find? (fun e => e.1 = p) with
  | none => rw [hf] at h; cases h
  | some e =>
    have hmem := List.mem_of_find?_eq_some hf
    have hp := List.find?_some hf
    simp only [decide_eq_true_eq] at hp
    subst hp
    exact List.mem_map.mpr ⟨e, hmem, rfl⟩

theorem Store.not_mem_keys_remove (s : Store) (p : FsPath) :
    p ∉ Store.keys (Store.remove s p) := by
  intro h
  simp only [Store.keys, Store.remove, List.mem_map, List.mem_filter] at h
  obtain ⟨e, ⟨_, hpred⟩, he⟩ := h
  simp [he] at hpred

theorem VideoHashFilesystemCache.all_cached_paths_sub_keys (s : Store) (p : FsPath)
    (h : p ∈ VideoHashFilesystemCache.all_cached_paths s) : p ∈ Store.keys s :=
  (List.mem_filter.mp h).1

theorem VideoHashFilesystemCache.fetch_ok_iff (s : Store) (p : FsPath) :
    exceptIsOk (VideoHashFilesystemCache.fetch s p) = true ↔
      ∃ mt d, Store.get s p = some (mt, CacheEntry.mk (.ok d)) := by
  cases hg : Store.get s p with
  | none =>
    simp [VideoHashFilesystemCache.fetch, VideoHashFilesystemCache.fetch_entry,
      ProcessingFsCache.fetch, hg, exceptIsOk]
  | some x =>
    obtain ⟨mt, entry⟩ := x
    cases entry with
    | mk v =>
      cases v with
      | ok d =>
        simp [VideoHashFilesystemCache.fetch, VideoHashFilesystemCache.fetch_entry,
          ProcessingFsCache.fetch, hg, exceptIsOk]
      | error e =>
        simp [VideoHashFilesystemCache.fetch, VideoHashFilesystemCache.fetch_entry,
          ProcessingFsCache.fetch, hg, exceptIsOk]

/-! ## Claim C4 -/

/-- C4: `contains(p)` is true iff `p` is a descendant of (or equal to) some
source path and not a descendant of (or equal to) any exclusion path; the
function is pure (it is modelled as a state-free function). -/
theorem spec_c4_contains_iff (fp : FileProjection) (p : FsPath) :
    fp.contains p = true ↔
      ((∃ s ∈ fp.src_paths, ∃ r, s ++ r = p) ∧
        ∀ e ∈ fp.excl_paths, ∀ r, e ++ r ≠ p) := by
  simp only [FileProjection.contains, FileProjection.raw_includes,
    FileProjection.raw_excludes, Bool.and_eq_true, Bool.not_eq_true',
    List.any_eq_true, List.any_eq_false, pathStartsWith_iff]
  constructor
  · rintro ⟨hinc, hexcl⟩
    exact ⟨hinc, fun e he r2 hr2 => (hexcl e he) ⟨r2, hr2⟩⟩
  · rintro ⟨hinc, hexcl⟩
    exact ⟨hinc, fun e he hex => hex.elim (fun r2 hr2 => hexcl e he r2 hr2)⟩

/-! ## Claim C9 -/

/-- C9: when a store entry exists but holds a classified failure
(negative cache), `fetch` returns that failure wrapped as
`CreateHashError` instead of a value. -/
theorem spec_c9_fetch_failure_entry (s : Store) (p : FsPath) (mt : Nat)
    (e : HashCreationErrorKind)
    (h : Store.get s p = some (mt, CacheEntry.mk (.error e))) :
    VideoHashFilesystemCache.fetch s p = .error (.CreateHashError e) := by
  simp [VideoHashFilesystemCache.fetch, VideoHashFilesystemCache.fetch_entry,
    ProcessingFsCache.fetch, h]

/-! ## Claim C3 -/

/-- C3: `all_cached_paths` lists exactly the store keys whose record is a
`Success`; a key holding a classified failure stays in the store but is
excluded from the listing. -/
theorem spec_c3_all_cached_paths (s : Store) (p : FsPath) :
    (p ∈ VideoHashFilesystemCache.all_cached_paths s ↔
      ∃ mt d, Store.get s p = some (mt, CacheEntry.mk (.ok d))) ∧
    (∀ mt e, Store.get s p = some (mt, CacheEntry.mk (.error e)) →
      p ∈ Store.keys s ∧ p ∉ VideoHashFilesystemCache.all_cached_paths s) := by
  have hmem : p ∈ VideoHashFilesystemCache.all_cached_paths s ↔
      p ∈ Store.keys s ∧
        exceptIsOk (VideoHashFilesystemCache.fetch s p) = true := by
    simp [VideoHashFilesystemCache.all_cached_paths, List.mem_filter]
  constructor
  · rw [hmem, VideoHashFilesystemCache.fetch_ok_iff]
    constructor
    · rintro ⟨_, h⟩; exact h
    · rintro ⟨mt, d, h⟩
      exact ⟨Store.mem_keys_of_get_eq_some s p _ h, mt, d, h⟩
  · intro mt e h
    refine ⟨Store.mem_keys_of_get_eq_some s p _ h, ?_⟩
    rw [hmem, VideoHashFilesystemCache.fetch_ok_iff]
    rintro ⟨_, mt2, d2, h2⟩
    rw [h] at h2
    injection h2 with h3
    injection h3 with _ h4
    injection h4 with h5
    cases h5

/-! ## Claim C1 -/

/-- C1: for a path that does not exist on disk, `fetch_update` removes any
store entry for it and returns `Ok(None)`; afterwards the path is neither
a store key nor listed by `all_cached_paths`. -/
theorem spec_c1_fetch_update_absent (fs : VideoFs) (s : Store) (p : FsPath)
    (h : VideoFs.mtime fs p = none) :
    VideoHashFilesystemCache.fetch_update fs s p = .ok (Store.remove s p, none) ∧
    p ∉ Store.keys (Store.remove s p) ∧
    p ∉ VideoHashFilesystemCache.all_cached_paths (Store.remove s p) := by
  refine ⟨?_, Store.not_mem_keys_remove s p, ?_⟩
  · simp [VideoHashFilesystemCache.fetch_update, ProcessingFsCache.fetch_update, h]
  · intro hmem
    exact Store.not_mem_keys_remove s p
      (VideoHashFilesystemCache.all_cached_paths_sub_keys _ p hmem)

/-! ## Claim C6 -/

/-- C6: calling `project_using_fs` on a projection already in state
`ProjectedUsingFs` is an idempotent no-op: it returns `Ok` with an empty
error list and the projection (hence the projected file set) unchanged. -/
theorem spec_c6_project_using_fs_idempotent (fs : Fs) (fp : FileProjection)
    (h : fp.state = .ProjectedUsingFs) :
    FileProjection.project_using_fs fs fp = some (.ok ([], fp)) := by
  simp [FileProjection.project_using_fs, h]

/-! ## Claim C7 -/

/-- C7: on an unprojected projection, `project_using_list` keeps exactly
the candidates accepted by `contains`; the excluded-extension test is not
applied, so a candidate with an excluded extension is retained whenever
`contains` holds. -/
theorem spec_c7_project_using_list (fp : FileProjection) (list : List FsPath)
    (h : fp.state = .Unprojected) :
    ∃ fp2, FileProjection.project_using_list fp list = some fp2 ∧
      (∀ p, p ∈ fp2.projected_files ↔ p ∈ list ∧ fp.contains p = true) ∧
      (∀ p, p ∈ list → fp.contains p = true → fp.has_ignore_ext p = true →
        p ∈ fp2.projected_files) := by
  refine ⟨{ fp with
            projected_files := (list.filter (fun p => fp.contains p)).dedup,
            state := .ProjectedUsingList }, ?_, ?_, ?_⟩
  · simp [FileProjection.project_using_list, h]
  · intro p
    simp [List.mem_dedup, List.mem_filter]
  · intro p hp hc _
    simp only [List.mem_dedup, List.mem_filter]
    exact ⟨hp, hc⟩

/-! ## Claim C5 (corrected) -/

/-- C5 counterexample: the exclusion path `a/b` is nested under the source
path `a` — an overlap "in the other direction" — yet construction
succeeds, so the claim that any nesting between the two lists is rejected
is false. -/
theorem spec_c5_counterexample :
    FileProjection.new [["a"]] [["a", "b"]] [] =
      .ok { src_paths := [["a"]], excl_paths := [["a", "b"]],
            projected_files := [], state := .Unprojected, excl_exts := [] } := rfl

/-- C5 amended: construction fails with `SrcPathExcluded` identifying an
overlapping pair exactly when some source path is nested under (or equal
to) some exclusion path; nesting in the opposite direction alone is not
rejected. -/
theorem spec_c5_amended (src excl : List FsPath) (exts : List String)
    (h : ∃ s ∈ src, ∃ e ∈ excl, pathStartsWith s e = true) :
    ∃ s e, FileProjection.new src excl exts = .error (.SrcPathExcluded s e) ∧
      s ∈ src ∧ e ∈ excl ∧ pathStartsWith s e = true := by
  obtain ⟨s0, hs0, e0, he0, hsw0⟩ := h
  cases hfs : excl.findSome? (fun excl_path =>
      src.findSome? (fun src_path =>
        if pathStartsWith src_path excl_path then
          some (src_path, excl_path)
        else none)) with
  | none =>
    exfalso
    have hall := List.findSome?_eq_none_iff.mp hfs e0 he0
    have hall2 := List.findSome?_eq_none_iff.mp hall s0 hs0
    rw [if_pos hsw0] at hall2
    cases hall2
  | some pair =>
    obtain ⟨s, e⟩ := pair
    obtain ⟨ep, hep, hinner⟩ := List.exists_of_findSome?_eq_some hfs
    obtain ⟨sp, hsp, hif⟩ := List.exists_of_findSome?_eq_some hinner
    refine ⟨s, e, ?_, ?_⟩
    · unfold FileProjection.new
      rw [hfs]
    · by_cases hsw : pathStartsWith sp ep
      · rw [if_pos hsw] at hif
        injection hif with hif2
        rw [Prod.mk.injEq] at hif2
        obtain ⟨h1, h2⟩ := hif2
        subst h1
        subst h2
        exact ⟨hsp, hep, hsw⟩
      · rw [if_neg hsw] at hif
        cases hif

/-! ## Claim C2 -/

/-- C2: the bulk update visits exactly the union of the still-in-scope
cached paths and the projected files, each path once; `update_using_fs`
folds `fetch_update` over precisely that deduplicated list. -/
theorem spec_c2_update_set (fs : VideoFs) (s : Store) (fp : FileProjection)
    (h : fp.state ≠ .Unprojected) :
    (VideoHashFilesystemCache.all_update_paths s fp).Nodup ∧
    (∀ p, p ∈ VideoHashFilesystemCache.all_update_paths s fp ↔
      ((p ∈ VideoHashFilesystemCache.all_cached_paths s ∧ fp.contains p = true) ∨
        p ∈ fp.projected_files)) ∧
    VideoHashFilesystemCache.update_using_fs fs s fp =
      some (.ok ((VideoHashFilesystemCache.all_update_paths s fp).foldl
        (VideoHashFilesystemCache.update_step fs) (s, []))) := by
  refine ⟨List.nodup_dedup _, ?_, ?_⟩
  · intro p
    simp [VideoHashFilesystemCache.all_update_paths, List.mem_dedup,
      List.mem_append, List.mem_filter]
  · cases hst : fp.state with
    | Unprojected => exact absurd hst h
    | ProjectedUsingFs =>
      simp [VideoHashFilesystemCache.update_using_fs,
        FileProjection.projectedFilesChecked, hst]
    | ProjectedUsingList =>
      simp [VideoHashFilesystemCache.update_using_fs,
        FileProjection.projectedFilesChecked, hst]

/-! ## Claim C8 -/

theorem find?_filter_key_ne (l : List (FsPath × Nat × CacheEntry))
    (p q : FsPath) (h : q ≠ p) :
    (l.filter (fun e => !(e.1 = p : Bool))).find? (fun e => e.1 = q) =
      l.find? (fun e => e.1 = q) := by
  induction l with
  | nil => rfl
  | cons e l ih =>
    by_cases hep : e.1 = p
    · rw [List.filter_cons_of_neg (by simp [hep])]
      rw [List.find?_cons_of_neg _ (by simp [hep]; exact fun hh => h hh.symm)]
      exact ih
    · rw [List.filter_cons_of_pos (by simp [hep])]
      by_cases heq : e.1 = q
      · rw [List.find?_cons_of_pos _ (by simp [heq]),
          List.find?_cons_of_pos _ (by simp [heq])]
      · rw [List.find?_cons_of_neg _ (by simp [heq]),
          List.find?_cons_of_neg _ (by simp [heq])]
        exact ih

theorem Store.get_remove_ne (s : Store) (p q : FsPath) (h : q ≠ p) :
    Store.get (Store.remove s p) q = Store.get s q := by
  simp only [Store.get, Store.remove]
  rw [find?_filter_key_ne s.entries p q h]

theorem Store.get_put_ne (s : Store) (p q : FsPath) (mt : Nat)
    (c : CacheEntry) (h : q ≠ p) :
    Store.get (Store.put s p mt c) q = Store.get s q := by
  simp only [Store.get, Store.put]
  rw [List.find?_cons_of_neg _ (by simp; exact fun hh => h hh.symm)]
  simp only [Store.remove]
  rw [find?_filter_key_ne s.entries p q h]

theorem ProcessingFsCache.fetch_update_cases (fs : VideoFs) (s : Store)
    (p : FsPath) :
    ProcessingFsCache.fetch_update fs s p = .ok (Store.remove s p, none) ∨
    (∃ entry, ProcessingFsCache.fetch_update fs s p = .ok (s, some entry)) ∨
    (∃ mt entry,
      ProcessingFsCache.fetch_update fs s p =
        .ok (Store.put s p mt entry, some entry)) ∨
    (∃ e, ProcessingFsCache.fetch_update fs s p = .error e) := by
  cases hmt : fs.mtime p with
  | none =>
    left
    simp only [ProcessingFsCache.fetch_update, hmt]
  | some mt =>
    cases hg : Store.get s p with
    | some x =>
      obtain ⟨mt0, entry⟩ := x
      by_cases hmt0 : mt0 = mt
      · right; left
        exact ⟨entry,
          by simp only [ProcessingFsCache.fetch_update, hmt, hg, if_pos hmt0]⟩
      · cases hse : fs.storeErr p with
        | some e =>
          right; right; right
          exact ⟨e, by simp only [ProcessingFsCache.fetch_update, hmt, hg,
            if_neg hmt0, hse]⟩
        | none =>
          right; right; left
          exact ⟨mt, ⟨fs.produce p⟩,
            by simp only [ProcessingFsCache.fetch_update, hmt, hg,
              if_neg hmt0, hse]⟩
    | none =>
      cases hse : fs.storeErr p with
      | some e =>
        right; right; right
        exact ⟨e, by simp only [ProcessingFsCache.fetch_update, hmt, hg, hse]⟩
      | none =>
        right; right; left
        exact ⟨mt, ⟨fs.produce p⟩,
          by simp only [ProcessingFsCache.fetch_update, hmt, hg, hse]⟩

theorem ProcessingFsCache.fetch_update_frame (fs : VideoFs) (s : Store)
    (p q : FsPath) (h : q ≠ p) (s1 : Store) (r : Option CacheEntry)
    (hok : ProcessingFsCache.fetch_update fs s p = .ok (s1, r)) :
    Store.get s1 q = Store.get s q := by
  rcases ProcessingFsCache.fetch_update_cases fs s p with
    hc | ⟨entry, hc⟩ | ⟨mt, entry, hc⟩ | ⟨e, hc⟩ <;> rw [hc] at hok
  · cases hok
    exact Store.get_remove_ne s p q h
  · cases hok
    rfl
  · cases hok
    exact Store.get_put_ne s p q mt entry h
  · cases hok

theorem VideoHashFilesystemCache.wrapper_fetch_update_frame (fs : VideoFs) (s : Store)
    (p q : FsPath) (h : q ≠ p) (s1 : Store)
    (r : Option (Except HashCreationErrorKind VideoHash))
    (hok : VideoHashFilesystemCache.fetch_update fs s p = .ok (s1, r)) :
    Store.get s1 q = Store.get s q := by
  unfold VideoHashFilesystemCache.fetch_update at hok
  cases hpfc : ProcessingFsCache.fetch_update fs s p with
  | error e =>
    rw [hpfc] at hok
    cases hok
  | ok x =>
    obtain ⟨s2, ent⟩ := x
    have hframe := ProcessingFsCache.fetch_update_frame fs s p q h s2 ent hpfc
    rw [hpfc] at hok
    cases ent with
    | none =>
      cases hok
      exact hframe
    | some entry =>
      cases hv : entry.val with
      | ok d =>
        simp only [hv] at hok
        cases hok
        exact hframe
      | error e2 =>
        simp only [hv] at hok
        cases hok
        exact hframe

theorem VideoHashFilesystemCache.path_outcome_eq_spec (fs : VideoFs)
    (s : Store) (p : FsPath) :
    VideoHashFilesystemCache.path_outcome fs s p =
      fu_outcome_spec fs (Store.get s p) p := by
  unfold VideoHashFilesystemCache.path_outcome
    VideoHashFilesystemCache.fetch_update ProcessingFsCache.fetch_update
    fu_outcome_spec
  cases hmt : fs.mtime p with
  | none => simp only [hmt]
  | some mt =>
    cases hg : Store.get s p with
    | some x =>
      obtain ⟨mt0, entry⟩ := x
      by_cases hmt0 : mt0 = mt
      · simp only [hmt, hg, if_pos hmt0]
        cases hv : entry.val with
        | ok d => simp only [hv]
        | error e => simp only [hv]
      · cases hse : fs.storeErr p with
        | some e => simp only [hmt, hg, if_neg hmt0, hse]
        | none =>
          simp only [hmt, hg, if_neg hmt0, hse]
          cases hp : fs.produce p with
          | ok d => simp only [hp]
          | error e => simp only [hp]
    | none =>
      cases hse : fs.storeErr p with
      | some e => simp only [hmt, hg, hse]
      | none =>
        simp only [hmt, hg, hse]
        cases hp : fs.produce p with
        | ok d => simp only [hp]
        | error e => simp only [hp]

theorem VideoHashFilesystemCache.update_step_fst_frame (fs : VideoFs)
    (acc : Store × List VdfCacheError) (p q : FsPath) (h : q ≠ p) :
    Store.get (VideoHashFilesystemCache.update_step fs acc p).1 q =
      Store.get acc.1 q := by
  unfold VideoHashFilesystemCache.update_step
  cases hfu : VideoHashFilesystemCache.fetch_update fs acc.1 p with
  | error e => simp only [hfu]
  | ok x =>
    obtain ⟨s1, r⟩ := x
    have hframe :=
      VideoHashFilesystemCache.wrapper_fetch_update_frame fs acc.1 p q h s1 r hfu
    cases r with
    | none =>
      simp only [hfu]
      exact hframe
    | some v =>
      cases v with
      | ok d =>
        simp only [hfu]
        exact hframe
      | error e =>
        simp only [hfu]
        exact hframe

theorem VideoHashFilesystemCache.update_step_snd (fs : VideoFs)
    (acc : Store × List VdfCacheError) (p : FsPath) :
    (VideoHashFilesystemCache.update_step fs acc p).2 =
      acc.2 ++ (VideoHashFilesystemCache.path_outcome fs acc.1 p).toList := by
  unfold VideoHashFilesystemCache.update_step VideoHashFilesystemCache.path_outcome
  cases hfu : VideoHashFilesystemCache.fetch_update fs acc.1 p with
  | error e => simp [hfu]
  | ok x =>
    obtain ⟨s1, r⟩ := x
    cases r with
    | none => simp [hfu]
    | some v =>
      cases v with
      | ok d => simp [hfu]
      | error e => simp [hfu]

theorem VideoHashFilesystemCache.foldl_update_step_spec (fs : VideoFs) :
    ∀ (ps : List FsPath) (s t : Store) (errs : List VdfCacheError),
      ps.Nodup → (∀ p ∈ ps, Store.get s p = Store.get t p) →
      (ps.foldl (VideoHashFilesystemCache.update_step fs) (s, errs)).2 =
        errs ++ ps.filterMap (VideoHashFilesystemCache.path_outcome fs t) := by
  intro ps
  induction ps with
  | nil =>
    intro s t errs _ _
    simp
  | cons p ps ih =>
    intro s t errs hnd hget
    rw [List.foldl_cons]
    have hnd2 := List.nodup_cons.mp hnd
    have hout : VideoHashFilesystemCache.path_outcome fs s p =
        VideoHashFilesystemCache.path_outcome fs t p := by
      rw [VideoHashFilesystemCache.path_outcome_eq_spec,
        VideoHashFilesystemCache.path_outcome_eq_spec,
        hget p (List.mem_cons_self p ps)]
    have hstep2 := VideoHashFilesystemCache.update_step_snd fs (s, errs) p
    have hrec := ih (VideoHashFilesystemCache.update_step fs (s, errs) p).1 t
      (VideoHashFilesystemCache.update_step fs (s, errs) p).2 hnd2.2
      (by
        intro q hq
        have hqp : q ≠ p := fun hh => hnd2.1 (hh ▸ hq)
        rw [VideoHashFilesystemCache.update_step_fst_frame fs (s, errs) p q hqp]
        exact hget q (List.mem_cons_of_mem p hq))
    calc (ps.foldl (VideoHashFilesystemCache.update_step fs)
            (VideoHashFilesystemCache.update_step fs (s, errs) p)).2
        = (VideoHashFilesystemCache.update_step fs (s, errs) p).2 ++
            ps.filterMap (VideoHashFilesystemCache.path_outcome fs t) := hrec
      _ = (errs ++ (VideoHashFilesystemCache.path_outcome fs s p).toList) ++
            ps.filterMap (VideoHashFilesystemCache.path_outcome fs t) := by
            rw [hstep2]
      _ = errs ++ ((VideoHashFilesystemCache.path_outcome fs t p).toList ++
            ps.filterMap (VideoHashFilesystemCache.path_outcome fs t)) := by
            rw [hout, List.append_assoc]
      _ = errs ++ List.filterMap
            (VideoHashFilesystemCache.path_outcome fs t) (p :: ps) := by
            rw [List.filterMap_cons]
            cases VideoHashFilesystemCache.path_outcome fs t p <;> simp

/-- C8: bulk update never fails as a whole; every per-path classified
Producer failure and every per-path Store-level error is appended to the
returned non-fatal list (each judged against the pre-update store, so
processing continues over all remaining paths). -/
theorem spec_c8_update_errors (fs : VideoFs) (s : Store) (fp : FileProjection)
    (h : fp.state ≠ .Unprojected) :
    VideoHashFilesystemCache.update_using_fs fs s fp =
      some (.ok (((VideoHashFilesystemCache.all_update_paths s fp).foldl
          (VideoHashFilesystemCache.update_step fs) (s, [])).1,
        (VideoHashFilesystemCache.all_update_paths s fp).filterMap
          (VideoHashFilesystemCache.path_outcome fs s))) := by
  have hrun : VideoHashFilesystemCache.update_using_fs fs s fp =
      some (.ok ((VideoHashFilesystemCache.all_update_paths s fp).foldl
        (VideoHashFilesystemCache.update_step fs) (s, []))) := by
    cases hst : fp.state with
    | Unprojected => exact absurd hst h
    | ProjectedUsingFs =>
      simp [VideoHashFilesystemCache.update_using_fs,
        FileProjection.projectedFilesChecked, hst]
    | ProjectedUsingList =>
      simp [VideoHashFilesystemCache.update_using_fs,
        FileProjection.projectedFilesChecked, hst]
  rw [hrun]
  have hsnd : ((VideoHashFilesystemCache.all_update_paths s fp).foldl
      (VideoHashFilesystemCache.update_step fs) (s, [])).2 =
      (VideoHashFilesystemCache.all_update_paths s fp).filterMap
        (VideoHashFilesystemCache.path_outcome fs s) := by
    simpa using VideoHashFilesystemCache.foldl_update_step_spec fs
      (VideoHashFilesystemCache.all_update_paths s fp) s s []
      (List.nodup_dedup _) (fun p _ => rfl)
  rw [← hsnd]

/-! ## Claim C10 -/

mutual
/-- Every file produced by a filtered walk lies under the walk root, and
every path between the root (inclusive) and the file satisfies the
predicate: `filter_entry` prunes a rejected directory with its whole
subtree. -/
theorem Fs.walk_mem_pred : ∀ (pred : FsPath → Bool) (e : Fs) (base q : FsPath),
    q ∈ (Fs.walk pred base e).1 →
    (∃ r, base ++ r = q) ∧
      (∀ d, (∃ r1, base ++ r1 = d) → (∃ r2, d ++ r2 = q) → pred d = true)
  | pred, .file, base, q, h => by
    by_cases hp : pred base = true
    · simp only [Fs.walk, hp, if_true, List.mem_singleton] at h
      subst h
      refine ⟨⟨[], List.append_nil _⟩, ?_⟩
      rintro d ⟨r1, hr1⟩ ⟨r2, hr2⟩
      have hcat : q ++ (r1 ++ r2) = q ++ [] := by
        rw [← List.append_assoc, hr1, hr2, List.append_nil]
      obtain ⟨hr1n, _⟩ := List.append_eq_nil.mp (List.append_cancel_left hcat)
      subst hr1n
      rw [List.append_nil] at hr1
      rw [← hr1]
      exact hp
    · simp [Fs.walk, hp] at h
  | pred, .unreadable, base, q, h => by
    by_cases hp : pred base = true
    · simp [Fs.walk, hp] at h
    · simp [Fs.walk, hp] at h
  | pred, .dir children, base, q, h => by
    by_cases hp : pred base = true
    · simp only [Fs.walk, hp, if_true] at h
      obtain ⟨⟨a, r, hq⟩, hd⟩ := FsList.walk_mem_pred_children pred children base q h
      refine ⟨⟨a :: r, hq⟩, ?_⟩
      intro d hd1 hd2
      rcases hd d hd1 hd2 with hdb | hpred
      · subst hdb
        exact hp
      · exact hpred
    · simp [Fs.walk, hp] at h
/-- Child version of `Fs.walk_mem_pred`: files from the children's walks
lie strictly below the directory, and every strictly deeper path up to the
file satisfies the predicate. -/
theorem FsList.walk_mem_pred_children : ∀ (pred : FsPath → Bool) (l : FsList)
    (base q : FsPath),
    q ∈ (FsList.walk pred base l).1 →
    (∃ a r, base ++ a :: r = q) ∧
      (∀ d, (∃ r1, base ++ r1 = d) → (∃ r2, d ++ r2 = q) →
        d = base ∨ pred d = true)
  | pred, .nil, base, q, h => by
    simp [FsList.walk] at h
  | pred, .cons name child rest, base, q, h => by
    simp only [FsList.walk, List.mem_append] at h
    rcases h with hc | hr
    · obtain ⟨⟨r, hq⟩, hdc⟩ := Fs.walk_mem_pred pred child (base ++ [name]) q hc
      constructor
      · refine ⟨name, r, ?_⟩
        rw [← hq, List.append_assoc]
        rfl
      · rintro d ⟨r1, hr1⟩ ⟨r2, hr2⟩
        cases r1 with
        | nil =>
          left
          rw [List.append_nil] at hr1
          exact hr1.symm
        | cons a r1tl =>
          right
          have h1 : base ++ ((a :: r1tl) ++ r2) = q := by
            rw [← List.append_assoc, hr1, hr2]
          rw [List.append_assoc] at hq
          have h4 := List.append_cancel_left (h1.trans hq.symm)
          rw [List.cons_append, List.singleton_append] at h4
          injection h4 with ha hrest
          subst ha
          apply hdc d
          · refine ⟨r1tl, ?_⟩
            rw [List.append_assoc]
            exact hr1
          · exact ⟨r2, hr2⟩
    · obtain ⟨⟨a, r, hq⟩, hdr⟩ := FsList.walk_mem_pred_children pred rest base q hr
      exact ⟨⟨a, r, hq⟩, hdr⟩
end

/-- C10 counterexample: `b.txt` is a directory carrying the excluded
extension, yet the file `a/b.txt/c/f` beneath it is in the projected set,
because the second source path starts below `b.txt` and its walk never
visits `b.txt` itself. -/
theorem spec_c10_counterexample :
    FileProjection.project_using_fs nestedSrcFs nestedSrcProj =
      some (.ok ([], nestedSrcProjAfter)) ∧
    nestedSrcProj.has_ignore_ext ["a", "b.txt"] = true ∧
    pathStartsWith ["a", "b.txt", "c", "f"] ["a", "b.txt"] = true ∧
    ["a", "b.txt", "c", "f"] ∈ nestedSrcProjAfter.projected_files :=
  ⟨rfl, by decide, by decide, by decide⟩

/-- C10 amended: during `project_using_fs` the `contains` and
excluded-extension tests are applied at every directory-descent step, so a
directory with an excluded extension is pruned with its entire subtree
*within each walk that visits it*: a file beneath it can only be projected
when some source path lies strictly below the excluded directory.  When
every source path above the file is also above the directory, no file
beneath it appears, regardless of that file's own extension. -/
theorem spec_c10_amended (fs : Fs) (fp fp2 : FileProjection)
    (errs : List FsPath) (d q : FsPath)
    (h1 : fp.state = .Unprojected)
    (h2 : FileProjection.project_using_fs fs fp = some (.ok (errs, fp2)))
    (h3 : fp.has_ignore_ext d = true)
    (h4 : pathStartsWith q d = true)
    (h5 : ∀ sp ∈ fp.src_paths, pathStartsWith q sp = true →
      pathStartsWith d sp = true) :
    q ∉ fp2.projected_files := by
  intro hq
  simp only [FileProjection.project_using_fs, h1] at h2
  cases hfind1 : fp.src_paths.find? (fun p => !(fs.pathExists p)) with
  | some p0 =>
    rw [hfind1] at h2
    simp at h2
  | none =>
    rw [hfind1] at h2
    cases hfind2 : fp.excl_paths.find? (fun p => !(fs.pathExists p)) with
    | some p0 =>
      rw [hfind2] at h2
      simp at h2
    | none =>
      rw [hfind2] at h2
      simp only [Option.some.injEq, Except.ok.injEq, Prod.mk.injEq] at h2
      obtain ⟨herrs, hfp2⟩ := h2
      subst hfp2
      dsimp only at hq
      rw [List.mem_dedup, List.mem_flatten] at hq
      obtain ⟨lst, hlst, hqlst⟩ := hq
      rw [List.mem_map] at hlst
      obtain ⟨sp, hsp, hlsteq⟩ := hlst
      rw [List.mem_map] at hsp
      obtain ⟨sp0, hsp0, hspeq⟩ := hsp
      subst hspeq
      subst hlsteq
      cases hlk : fs.lookup sp0 with
      | none =>
        rw [hlk] at hqlst
        simp at hqlst
      | some e =>
        rw [hlk] at hqlst
        obtain ⟨⟨r, hspq⟩, hpredall⟩ := Fs.walk_mem_pred _ e sp0 q hqlst
        have hspq2 : pathStartsWith q sp0 = true :=
          (pathStartsWith_iff q sp0).mpr ⟨r, hspq⟩
        have hspd := h5 sp0 hsp0 hspq2
        obtain ⟨r1, hr1⟩ := (pathStartsWith_iff d sp0).mp hspd
        obtain ⟨r2, hr2⟩ := (pathStartsWith_iff q d).mp h4
        have hpred := hpredall d ⟨r1, hr1⟩ ⟨r2, hr2⟩
        rw [Bool.and_eq_true] at hpred
        have hneg := hpred.2
        rw [h3] at hneg
        simp at hneg

/-! ## Witnesses -/

/-- Witness for C1 at a concrete absent path. -/
theorem spec_c1_witness :
    VideoFs.mtime wVideoFs ["v", "gone.mp4"] = none ∧
    (VideoHashFilesystemCache.fetch_update wVideoFs wStore ["v", "gone.mp4"] =
        .ok (Store.remove wStore ["v", "gone.mp4"], none) ∧
      ["v", "gone.mp4"] ∉ Store.keys (Store.remove wStore ["v", "gone.mp4"]) ∧
      ["v", "gone.mp4"] ∉ VideoHashFilesystemCache.all_cached_paths
        (Store.remove wStore ["v", "gone.mp4"])) :=
  ⟨rfl, spec_c1_fetch_update_absent wVideoFs wStore ["v", "gone.mp4"] rfl⟩

/-- Witness for C2 at a concrete projected projection and store. -/
theorem spec_c2_witness :
    wProj.state ≠ .Unprojected ∧
    ((VideoHashFilesystemCache.all_update_paths wStore wProj).Nodup ∧
      (∀ p, p ∈ VideoHashFilesystemCache.all_update_paths wStore wProj ↔
        ((p ∈ VideoHashFilesystemCache.all_cached_paths wStore ∧
            wProj.contains p = true) ∨ p ∈ wProj.projected_files)) ∧
      VideoHashFilesystemCache.update_using_fs wVideoFs wStore wProj =
        some (.ok ((VideoHashFilesystemCache.all_update_paths wStore wProj).foldl
          (VideoHashFilesystemCache.update_step wVideoFs) (wStore, [])))) :=
  ⟨by decide, spec_c2_update_set wVideoFs wStore wProj (by decide)⟩

/-- Witness for C3 at a concrete store holding a negative-cached entry. -/
theorem spec_c3_witness :
    Store.get wStore ["v", "bad.mp4"] =
      some (3, CacheEntry.mk (.error (.VideoLength ["v", "bad.mp4"]))) ∧
    (["v", "bad.mp4"] ∈ Store.keys wStore ∧
      ["v", "bad.mp4"] ∉ VideoHashFilesystemCache.all_cached_paths wStore) :=
  ⟨rfl, (spec_c3_all_cached_paths wStore ["v", "bad.mp4"]).2 3
    (.VideoLength ["v", "bad.mp4"]) rfl⟩

/-- Witness for the amended C5 at concrete overlapping lists. -/
theorem spec_c5_amended_witness :
    (∃ s ∈ wSrcPaths, ∃ e ∈ wExclPaths, pathStartsWith s e = true) ∧
    (∃ s e, FileProjection.new wSrcPaths wExclPaths [] =
        .error (.SrcPathExcluded s e) ∧
      s ∈ wSrcPaths ∧ e ∈ wExclPaths ∧ pathStartsWith s e = true) :=
  ⟨⟨["x", "y"], by decide, ["x"], by decide, by decide⟩,
    spec_c5_amended wSrcPaths wExclPaths []
      ⟨["x", "y"], by decide, ["x"], by decide, by decide⟩⟩

/-- Witness for C6 at a concrete already-projected projection. -/
theorem spec_c6_witness :
    wProj.state = .ProjectedUsingFs ∧
    FileProjection.project_using_fs wFsTree wProj = some (.ok ([], wProj)) :=
  ⟨rfl, spec_c6_project_using_fs_idempotent wFsTree wProj rfl⟩

/-- Witness for C7 at a concrete candidate list containing a path with an
excluded extension. -/
theorem spec_c7_witness :
    wUnproj.state = .Unprojected ∧
    (∃ fp2, FileProjection.project_using_list wUnproj
        [["v", "a.mp4"], ["v", "notes.txt"], ["x", "other.mp4"]] = some fp2 ∧
      (∀ p, p ∈ fp2.projected_files ↔
        p ∈ [["v", "a.mp4"], ["v", "notes.txt"], ["x", "other.mp4"]] ∧
          wUnproj.contains p = true) ∧
      (∀ p, p ∈ [["v", "a.mp4"], ["v", "notes.txt"], ["x", "other.mp4"]] →
        wUnproj.contains p = true → wUnproj.has_ignore_ext p = true →
          p ∈ fp2.projected_files)) :=
  ⟨rfl, spec_c7_project_using_list wUnproj
    [["v", "a.mp4"], ["v", "notes.txt"], ["x", "other.mp4"]] rfl⟩

/-- Witness for C8 at a run with one classified Producer failure and one
Store-level failure: both land in the non-fatal list and the healthy path
is still processed. -/
theorem spec_c8_witness :
    wProj8.state ≠ .Unprojected ∧
    VideoHashFilesystemCache.update_using_fs wVideoFs8 ⟨[]⟩ wProj8 =
      some (.ok (((VideoHashFilesystemCache.all_update_paths ⟨[]⟩ wProj8).foldl
          (VideoHashFilesystemCache.update_step wVideoFs8) (⟨[]⟩, [])).1,
        (VideoHashFilesystemCache.all_update_paths ⟨[]⟩ wProj8).filterMap
          (VideoHashFilesystemCache.path_outcome wVideoFs8 ⟨[]⟩))) ∧
    (VideoHashFilesystemCache.all_update_paths ⟨[]⟩ wProj8).filterMap
        (VideoHashFilesystemCache.path_outcome wVideoFs8 ⟨[]⟩) =
      [.CreateHashError (.VideoLength ["v", "bad.mp4"]),
        .CacheErrror (.IoError "disk")] :=
  ⟨by decide, spec_c8_update_errors wVideoFs8 ⟨[]⟩ wProj8 (by decide), rfl⟩

/-- Witness for C9 at a concrete store entry holding a failure. -/
theorem spec_c9_witness :
    Store.get wStore ["v", "bad.mp4"] =
      some (3, CacheEntry.mk (.error (.VideoLength ["v", "bad.mp4"]))) ∧
    VideoHashFilesystemCache.fetch wStore ["v", "bad.mp4"] =
      .error (.CreateHashError (.VideoLength ["v", "bad.mp4"])) :=
  ⟨rfl, spec_c9_fetch_failure_entry wStore ["v", "bad.mp4"] 3
    (.VideoLength ["v", "bad.mp4"]) rfl⟩

/-- Witness for amended C10: `bad.txt` carries the excluded extension,
every source path above the file `a/bad.txt/x.mp4` is above `bad.txt`, and
the file is indeed not projected (while `a/ok.mp4` is). -/
theorem spec_c10_amended_witness :
    (wFp10.state = .Unprojected ∧
      FileProjection.project_using_fs wFs10 wFp10 =
        some (.ok ([], wFp10After)) ∧
      wFp10.has_ignore_ext ["a", "bad.txt"] = true ∧
      pathStartsWith ["a", "bad.txt", "x.mp4"] ["a", "bad.txt"] = true ∧
      (∀ sp ∈ wFp10.src_paths,
        pathStartsWith ["a", "bad.txt", "x.mp4"] sp = true →
          pathStartsWith ["a", "bad.txt"] sp = true)) ∧
    ["a", "bad.txt", "x.mp4"] ∉ wFp10After.projected_files :=
  ⟨⟨rfl, rfl, by decide, by decide, by decide⟩,
    spec_c10_amended wFs10 wFp10 wFp10After [] ["a", "bad.txt"]
      ["a", "bad.txt", "x.mp4"] rfl rfl (by decide) (by decide) (by decide)⟩
